import Mathlib

/-!
Verification of the transaction-modelling, identity and incremental-notification
core of `lloydsbank-pushoverd.py` against its natural-language specification.

The Python source is shallowly embedded: pure methods become Lean functions,
Python exceptions become an explicit `PyError` sum carried in `Except` (or in
the outcome record of the notifier), the cursor file becomes an
`Option String` (absent / present-with-content), and the outbound notification
sink becomes an oracle `sendOk : Nat -> Bool` saying whether the k-th send call
succeeds.
-/

/-- Exceptions the embedded code can raise.
`typeError` models a Python `TypeError` (raised by `'%d' % s` on a string
operand), `ioError` the `IOError` from `open(path, 'r+')` on an absent file,
`invalidOperation` the `decimal.InvalidOperation` of `Decimal(bad)`,
`assertionError` the `assert len(transactions) > 0`, and `sendError` a failure
of the HTTPS notification request. -/
inductive PyError where
  | typeError
  | ioError
  | invalidOperation
  | assertionError
  | sendError
deriving DecidableEq, Repr

/-- Python `decimal.Decimal` as the program uses it: a sign plus the literal
digit string (`str(Decimal("12.50")) = "12.50"`, trailing zeros kept). -/
structure PyDecimal where
  neg : Bool
  digits : String
deriving DecidableEq, Repr

/-- `str()` of a decimal: optional minus sign followed by the digit string. -/
def decStr (d : PyDecimal) : String :=
  (if d.neg then "-" else "") ++ d.digits

/-- Unary minus on a decimal (`-D(x)` in the source flips the sign,
`str(-Decimal("0")) = "-0"` when applied to `Decimal("0")`). -/
def pyNeg (d : PyDecimal) : PyDecimal :=
  { d with neg := !d.neg }

/-- Python `str.startswith` (structural, on the character lists). -/
def strStartsWith (s p : String) : Bool :=
  p.data.isPrefixOf s.data

/-- `Decimal(s)`: accept an optional sign, then a nonempty run of digits with
at most one decimal point; anything else raises `InvalidOperation`. -/
def parseDecimal (s : String) : Except PyError PyDecimal :=
  let core : Bool × List Char :=
    match s.data with
    | '-' :: rest => (true, rest)
    | '+' :: rest => (false, rest)
    | l => (false, l)
  let body := core.2
  if body ≠ [] ∧ body.all (fun c => c.isDigit ∨ c = '.') ∧
      body.count '.' ≤ 1 ∧ body.any Char.isDigit then
    .ok ⟨core.1, ⟨body⟩⟩
  else
    .error .invalidOperation

/-- A calendar date as produced by `datetime.strptime(s, '%d/%m/%Y')`. -/
structure PyDate where
  day : Nat
  month : Nat
  year : Nat
deriving DecidableEq, Repr

/-- Zero-padded two-digit rendering used by `strftime` for `%d`, `%m`, `%y`. -/
def pad2 (n : Nat) : String :=
  (if n < 10 then "0" else "") ++ Nat.repr n

/-- Zero-padded four-digit rendering used by `strftime` for `%Y`. -/
def pad4 (n : Nat) : String :=
  (if n < 10 then "000" else if n < 100 then "00" else if n < 1000 then "0" else "")
    ++ Nat.repr n

/-- `%b` month abbreviation (C locale), already uppercased as the source does
with `.upper()`. -/
def monthUpper (m : Nat) : String :=
  match m with
  | 1 => "JAN" | 2 => "FEB" | 3 => "MAR" | 4 => "APR"
  | 5 => "MAY" | 6 => "JUN" | 7 => "JUL" | 8 => "AUG"
  | 9 => "SEP" | 10 => "OCT" | 11 => "NOV" | 12 => "DEC"
  | _ => ""

/-- `self.date.strftime("%d%b%y").upper()` from `_parse_description`. -/
def fmtDDMMMYY (d : PyDate) : String :=
  pad2 d.day ++ monthUpper d.month ++ pad2 (d.year % 100)

/-- `self.date.strftime('%d/%m/%Y')` from `__repr__`. -/
def fmtDMY (d : PyDate) : String :=
  pad2 d.day ++ "/" ++ pad2 d.month ++ "/" ++ pad4 d.year

/-- Split a character list at every `'/'` (the semantics of `s.split('/')`). -/
def splitSlash : List Char → List (List Char)
  | [] => [[]]
  | '/' :: rest => [] :: splitSlash rest
  | c :: rest =>
    match splitSlash rest with
    | h :: t => (c :: h) :: t
    | [] => [[c]]

/-- The number denoted by a list of decimal digit characters. -/
def digitsToNat (l : List Char) : Nat :=
  l.foldl (fun acc c => acc * 10 + (c.toNat - 48)) 0

/-- `datetime.strptime(s, '%d/%m/%Y')`: three `/`-separated all-digit groups
with the day in 1..31 and the month in 1..12. -/
def parseDate (s : String) : Except PyError PyDate :=
  match splitSlash s.data with
  | [ds, ms, ys] =>
    if ds ≠ [] ∧ ms ≠ [] ∧ ys ≠ [] ∧
        ds.all Char.isDigit ∧ ms.all Char.isDigit ∧ ys.all Char.isDigit then
      let d := digitsToNat ds
      let m := digitsToNat ms
      if 1 ≤ d ∧ d ≤ 31 ∧ 1 ≤ m ∧ m ≤ 12 then .ok ⟨d, m, digitsToNat ys⟩
      else .error .invalidOperation
    else .error .invalidOperation
  | _ => .error .invalidOperation

/-- The fixed `TRANSACTION_TYPES` code-to-label table (the `'Comission'`
spelling is verbatim from the source). -/
def TRANSACTION_TYPES : List (String × String) :=
  [("BGC", "Bank giro credit"),
   ("BP", "Bill payment"),
   ("CD", "Card payment"),
   ("CHG", "Charge"),
   ("CHQ", "Cheque"),
   ("COMM", "Comission"),
   ("COR", "Correction"),
   ("CPT", "Cashpoint"),
   ("CSH", "Cash"),
   ("CSQ", "Cash / Cheque"),
   ("DD", "Direct Debit"),
   ("DEB", "Debit card"),
   ("DEP", "Deposit"),
   ("DR", "Overdrawn balance"),
   ("EUR", "Euro cheque"),
   ("FPI", "Faster payments incoming"),
   ("FPO", "Faster payments outgoing"),
   ("IB", "Internet Banking"),
   ("MTU", "Mobile top up"),
   ("PAY", "Payment"),
   ("PSV", "Paysave"),
   ("SAL", "Salary"),
   ("SO", "Standing order"),
   ("TFR", "Transfer")]

/-- `self.TRANSACTION_TYPES.get(self.transaction_type, '')`. -/
def typeLabel (tt : String) : String :=
  (TRANSACTION_TYPES.lookup tt).getD ""

/-- `Transaction.get_type_explanation`:

```python
if (self.transaction_type.startswith('CD')):
    four_digits = self.transaction_type[len('CD '):]
    return 'Paid by card **** **** **** %d' % four_digits
else:
    return self.TRANSACTION_TYPES.get(self.transaction_type, '')
```

`four_digits` is a `str` slice, and `'%d' % four_digits` with a string operand
unconditionally raises `TypeError` in Python 2 (and 3), so the card branch can
never return; it is embedded as `.error .typeError`.  Note the prefix test is
`'CD'` without a trailing space, so the bare table code `"CD"` also takes this
branch. -/
def get_type_explanation (tt : String) : Except PyError String :=
  if strStartsWith tt "CD" then
    .error .typeError
  else
    .ok (typeLabel tt)

/-- The whitespace characters removed by Python's `str.strip()`. -/
def isPySpace (c : Char) : Bool :=
  c = ' ' || c = '\t' || c = '\n' || c = '\r' || c = Char.ofNat 11 || c = Char.ofNat 12

/-- `str.strip()` on a character list: drop leading and trailing whitespace. -/
def pyStripL (l : List Char) : List Char :=
  ((l.dropWhile isPySpace).reverse.dropWhile isPySpace).reverse

/-- `str.strip()` on strings. -/
def pyStrip (s : String) : String :=
  ⟨pyStripL s.data⟩

/-- `str.strip("'")` used on the `Sort Code` field: drop leading and trailing
single-quote characters (codepoint 39). -/
def stripQuotes (s : String) : String :=
  ⟨((s.data.dropWhile (· = Char.ofNat 39)).reverse.dropWhile (· = Char.ofNat 39)).reverse⟩

/-- Does the remainder of the subject consist exactly of `" CD "` followed by
four digits?  This is the only way the anchored tail `" CD (\d{4})$"` of the
regex `(.*?) CD (\d{4})$` can match: the tail has fixed length 8 and `$` must
land on the end of the (already stripped) subject. -/
def cdSuffix : List Char → Option (List Char)
  | ' ' :: 'C' :: 'D' :: ' ' :: d1 :: d2 :: d3 :: d4 :: [] =>
    if d1.isDigit && d2.isDigit && d3.isDigit && d4.isDigit then
      some [d1, d2, d3, d4]
    else none
  | _ => none

/-- `re.match('(.*?) CD (\d{4})$', desc)`: the lazy group `(.*?)` grows from
the left one character at a time — `.` never matching a newline — until the
rest of the subject is exactly `" CD "` plus four digits.  Returns the text
captured by group 1 and the four digits of group 2. -/
def cdScan : List Char → Option (List Char × List Char)
  | [] => none
  | c :: rest =>
    match cdSuffix (c :: rest) with
    | some ds => some ([], ds)
    | none =>
      if c = '\n' then none
      else (cdScan rest).map (fun p => (c :: p.1, p.2))

/-- The date-stamp-stripping stage of `_parse_description`:

```python
desc = self.raw_description.strip()
end_date = self.date.strftime("%d%b%y").upper()
if desc.endswith(end_date):
    desc = desc[:-len(end_date)].strip()
```
-/
def dateStrippedDesc (d : PyDate) (raw : String) : List Char :=
  let desc := pyStripL raw.data
  let ed := (fmtDDMMMYY d).data
  if ed.isSuffixOf desc then pyStripL (desc.take (desc.length - ed.length)) else desc

/-- `Transaction._parse_description`: returns the cleaned description together
with the card digits (`self.card`), which stay `None` unless the regex
matched. -/
def parse_description (d : PyDate) (raw : String) : String × Option String :=
  let desc := dateStrippedDesc d raw
  match cdScan desc with
  | some (text, digits) => (⟨pyStripL text⟩, some ⟨digits⟩)
  | none => (⟨desc⟩, none)

/-- The description-cleanup algorithm exactly as the specification words it
(spec section 4.1, step 5): trim, strip a trailing `DDMmmYY` date stamp and
re-trim, then test for a trailing pattern `"<text> CD <4 digits>"` — i.e. ask
whether the last eight characters are `" CD "` plus four digits — and on a
match return the trimmed `<text>` and the digits.  It differs from the source
only in that the source's regex refuses to let `<text>` span a newline. -/
def parse_description_spec (d : PyDate) (raw : String) : String × Option String :=
  let desc := dateStrippedDesc d raw
  match cdSuffix (desc.drop (desc.length - 8)) with
  | some digits => (⟨pyStripL (desc.take (desc.length - 8))⟩, some ⟨digits⟩)
  | none => (⟨desc⟩, none)

/-! ### SHA-256 (`hashlib.sha256(...).hexdigest()`)

Machine words are `Nat`s reduced modulo `2^32` wherever overflow matters. -/

/-- 32-bit right rotation. -/
def rotr32 (x n : Nat) : Nat :=
  ((x >>> n) ||| (x <<< (32 - n))) % 4294967296

/-- The four bytes of a 32-bit word, big-endian. -/
def wordBytes (v : Nat) : List Nat :=
  [v >>> 24 % 256, v >>> 16 % 256, v >>> 8 % 256, v % 256]

/-- The eight bytes of the 64-bit message length, big-endian. -/
def lenBytes (v : Nat) : List Nat :=
  wordBytes ((v % 18446744073709551616) >>> 32) ++ wordBytes (v % 18446744073709551616)

/-- A 32-bit word from four big-endian bytes. -/
def bytesToWord (bs : List Nat) : Nat :=
  bs.foldl (fun acc b => acc * 256 + b) 0

/-- SHA-256 padding: append `0x80`, zeros to 56 mod 64, then the bit length. -/
def shaPad (msg : List Nat) : List Nat :=
  let l := msg.length
  let k := (119 - l % 64) % 64
  msg ++ [128] ++ List.replicate k 0 ++ lenBytes (l * 8)

/-- Split a byte list into 64-byte blocks (fuel-driven recursion). -/
def chunk64Aux : Nat → List Nat → List (List Nat)
  | 0, _ => []
  | _, [] => []
  | fuel + 1, l => l.take 64 :: chunk64Aux fuel (l.drop 64)

/-- Split a byte list into 64-byte blocks. -/
def chunk64 (l : List Nat) : List (List Nat) :=
  chunk64Aux (l.length + 1) l

/-- The 64 SHA-256 round constants of FIPS 180-4, as decimal `Nat` literals. -/
def shaK : List Nat :=
  [1116352408, 1899447441, 3049323471, 3921009573, 961987163, 1508970993,
   2453635748, 2870763221, 3624381080, 310598401, 607225278, 1426881987,
   1925078388, 2162078206, 2614888103, 3248222580, 3835390401, 4022224774,
   264347078, 604807628, 770255983, 1249150122, 1555081692, 1996064986,
   2554220882, 2821834349, 2952996808, 3210313671, 3336571891, 3584528711,
   113926993, 338241895, 666307205, 773529912, 1294757372, 1396182291,
   1695183700, 1986661051, 2177026350, 2456956037, 2730485921, 2820302411,
   3259730800, 3345764771, 3516065817, 3600352804, 4094571909, 275423344,
   430227734, 506948616, 659060556, 883997877, 958139571, 1322822218,
   1537002063, 1747873779, 1955562222, 2024104815, 2227730452, 2361852424,
   2428436474, 2756734187, 3204031479, 3329325298]

/-- The rolling hash state `(h0..h7)`. -/
structure SHAState where
  h0 : Nat
  h1 : Nat
  h2 : Nat
  h3 : Nat
  h4 : Nat
  h5 : Nat
  h6 : Nat
  h7 : Nat
deriving DecidableEq, Repr

/-- The SHA-256 initial hash value of FIPS 180-4, as decimal `Nat` literals. -/
def shaInit : SHAState :=
  ⟨1779033703, 3144134277, 1013904242, 2773480762,
   1359893119, 2600822924, 528734635, 1541459225⟩

/-- The 16 initial schedule words of a block. -/
def initW (block : List Nat) : List Nat :=
  (List.range 16).map (fun i => bytesToWord ((block.drop (4 * i)).take 4))

/-- Extend the schedule to 64 words. -/
def expandW (w16 : List Nat) : List Nat :=
  (List.range 48).foldl
    (fun w _ =>
      let i := w.length
      let x15 := w.getD (i - 15) 0
      let x2 := w.getD (i - 2) 0
      let s0 := (rotr32 x15 7 ^^^ rotr32 x15 18 ^^^ (x15 >>> 3)) % 4294967296
      let s1 := (rotr32 x2 17 ^^^ rotr32 x2 19 ^^^ (x2 >>> 10)) % 4294967296
      w ++ [(w.getD (i - 16) 0 + s0 + w.getD (i - 7) 0 + s1) % 4294967296])
    w16

/-- One compression round, consuming a round constant and a schedule word. -/
def shaRound (st : SHAState) (kw : Nat × Nat) : SHAState :=
  let S1 := rotr32 st.h4 6 ^^^ rotr32 st.h4 11 ^^^ rotr32 st.h4 25
  let ch := (st.h4 &&& st.h5) ^^^ ((st.h4 ^^^ 4294967295) &&& st.h6)
  let temp1 := (st.h7 + S1 + ch + kw.1 + kw.2) % 4294967296
  let S0 := rotr32 st.h0 2 ^^^ rotr32 st.h0 13 ^^^ rotr32 st.h0 22
  let maj := (st.h0 &&& st.h1) ^^^ (st.h0 &&& st.h2) ^^^ (st.h1 &&& st.h2)
  let temp2 := (S0 + maj) % 4294967296
  ⟨(temp1 + temp2) % 4294967296, st.h0, st.h1, st.h2,
   (st.h3 + temp1) % 4294967296, st.h4, st.h5, st.h6⟩

/-- Compress one 64-byte block into the rolling state. -/
def shaBlock (st : SHAState) (block : List Nat) : SHAState :=
  let w := expandW (initW block)
  let r := (shaK.zip w).foldl shaRound st
  ⟨(st.h0 + r.h0) % 4294967296, (st.h1 + r.h1) % 4294967296,
   (st.h2 + r.h2) % 4294967296, (st.h3 + r.h3) % 4294967296,
   (st.h4 + r.h4) % 4294967296, (st.h5 + r.h5) % 4294967296,
   (st.h6 + r.h6) % 4294967296, (st.h7 + r.h7) % 4294967296⟩

/-- SHA-256 of a byte sequence, as 32 bytes. -/
def sha256Bytes (msg : List Nat) : List Nat :=
  let f := (chunk64 (shaPad msg)).foldl shaBlock shaInit
  wordBytes f.h0 ++ wordBytes f.h1 ++ wordBytes f.h2 ++ wordBytes f.h3 ++
    wordBytes f.h4 ++ wordBytes f.h5 ++ wordBytes f.h6 ++ wordBytes f.h7

/-- UTF-8 encoding of one character (how a Python 2 `str` holds the text the
program hashes; the hashed strings are ASCII in practice). -/
def charUTF8 (c : Char) : List Nat :=
  let n := c.toNat
  if n < 128 then [n]
  else if n < 2048 then [192 + n / 64, 128 + n % 64]
  else if n < 65536 then [224 + n / 4096, 128 + n / 64 % 64, 128 + n % 64]
  else [240 + n / 262144, 128 + n / 4096 % 64, 128 + n / 64 % 64, 128 + n % 64]

/-- The byte sequence of a string. -/
def strBytes (s : String) : List Nat :=
  s.data.flatMap charUTF8

/-- A lowercase hexadecimal digit. -/
def hexChar (n : Nat) : Char :=
  if n < 10 then Char.ofNat (48 + n) else Char.ofNat (87 + n)

/-- `hashlib.sha256(s).hexdigest()`. -/
def sha256hex (s : String) : String :=
  ⟨(sha256Bytes (strBytes s)).flatMap (fun b => [hexChar (b / 16), hexChar (b % 16)])⟩

/-- One raw CSV record: the eight named fields `csv.DictReader` hands to
`Transaction.__init__`. -/
structure RawRecord where
  transactionDate : String
  transactionType : String
  accountNumber : String
  sortCode : String
  debitAmount : String
  creditAmount : String
  balance : String
  transactionDescription : String
deriving DecidableEq, Repr

/-- The `Transaction` object: the attributes `__init__` stores, with `hash`
the hex digest computed from `__repr__` at construction time. -/
structure Transaction where
  account_name : String
  date : PyDate
  transaction_type : String
  account_number : String
  sort_code : String
  amount : PyDecimal
  balance : PyDecimal
  card : Option String
  raw_description : String
  description : String
  hash : String
deriving DecidableEq, Repr

/-- `Transaction.__repr__`:

```python
return "Transaction(%s, %s, %s, %s, %s)" % (
        self.account_name, self.date.strftime('%d/%m/%Y'), self.get_type_explanation(),
        self.description, self.amount)
```

The `TypeError` that `get_type_explanation` raises on a `CD`-prefixed type
propagates. -/
def computeRepr (t : Transaction) : Except PyError String :=
  (get_type_explanation t.transaction_type).map (fun expl =>
    "Transaction(" ++ t.account_name ++ ", " ++ fmtDMY t.date ++ ", " ++ expl ++
      ", " ++ t.description ++ ", " ++ decStr t.amount ++ ")")

/-- `sha256(self.__repr__()).hexdigest()` — the fingerprint stored in
`self.hash` (line 76 of the source). -/
def computeHash (t : Transaction) : Except PyError String :=
  (computeRepr t).map sha256hex

/-- `Transaction.__init__`: parse the date, pick the amount from the debit
field (negated) or else the credit field, parse the balance, strip quotes from
the sort code, clean the description (which also sets `card`), and finally
store the fingerprint.  Any exception raised along the way propagates out of
the constructor. -/
def mkTransaction (account_name : String) (f : RawRecord) : Except PyError Transaction := do
  let date ← parseDate f.transactionDate
  let amount ←
    if f.debitAmount ≠ "" then (parseDecimal f.debitAmount).map pyNeg
    else parseDecimal f.creditAmount
  let balance ← parseDecimal f.balance
  let dc := parse_description date f.transactionDescription
  let t0 : Transaction :=
    { account_name := account_name
      date := date
      transaction_type := f.transactionType
      account_number := f.accountNumber
      sort_code := stripQuotes f.sortCode
      amount := amount
      balance := balance
      card := dc.2
      raw_description := f.transactionDescription
      description := dc.1
      hash := "" }
  let h ← computeHash t0
  .ok { t0 with hash := h }

/-- The balance-only message `"Account balance: £%s" % transaction.balance`
built when the cursor matches and the run is forced. -/
def balanceMessage (t : Transaction) : String :=
  "Account balance: £" ++ decStr t.balance

/-- The full message
`"%s %s %s\nAccount balance: £%s" % (amount, explanation, description, balance)`
built for a new transaction, given the already-computed type explanation. -/
def fullMessage (t : Transaction) (expl : String) : String :=
  decStr t.amount ++ " " ++ expl ++ " " ++ t.description ++
    "\nAccount balance: £" ++ decStr t.balance

/-- The notification loop of `push_notifications` (lines 200-223).  `last` is
the cursor read from the file, `sendOk k` tells whether the k-th HTTPS request
of this run succeeds, `k` counts requests made so far and `acc` accumulates
the dispatched `(title, message)` pairs in reverse.  Returns the dispatched
notifications in order plus the exception, if any, that aborted the loop:

* cursor hit and not forced: break;
* cursor hit and forced: send the balance-only message, then break (the
  post-send `if` fires because `force` is still true);
* otherwise: clear `force`, build the full message (`get_type_explanation`
  may raise here), send it and continue. -/
def pushLoop (last : String) (sendOk : Nat → Bool) :
    List Transaction → Bool → Nat → List (String × String) →
    List (String × String) × Option PyError
  | [], _, _, acc => (acc.reverse, none)
  | t :: rest, force, k, acc =>
    if t.hash = last ∧ force = false then
      (acc.reverse, none)
    else if t.hash = last then
      -- here `force` is necessarily true
      if sendOk k then (((t.account_name, balanceMessage t) :: acc).reverse, none)
      else (acc.reverse, some .sendError)
    else
      match get_type_explanation t.transaction_type with
      | .error e => (acc.reverse, some e)
      | .ok expl =>
        if sendOk k then
          pushLoop last sendOk rest false (k + 1) ((t.account_name, fullMessage t expl) :: acc)
        else (acc.reverse, some .sendError)

/-- The observable outcome of one `push_notifications` run: the notifications
dispatched (in order), the cursor file's content afterwards (`none` = absent),
and the exception that aborted the run, if any. -/
structure NotifyOutcome where
  sent : List (String × String)
  fileAfter : Option String
  err : Option PyError
deriving DecidableEq, Repr

/-- `push_notifications(transactions, ..., force)` (lines 191-229):

* `assert len(transactions) > 0` aborts an empty run before the file is
  touched;
* `open(os.path.expanduser(transaction_log), 'r+')` raises `IOError` when the
  file is absent (mode `'r+'` requires an existing file), leaving it absent;
* otherwise the file's entire content is the cursor, the loop runs, and only
  if the loop finishes without an exception is the file rewritten
  (seek/write/truncate) to exactly the newest transaction's fingerprint. -/
def push_notifications (transactions : List Transaction) (file : Option String)
    (force : Bool) (sendOk : Nat → Bool) : NotifyOutcome :=
  match transactions, file with
  | [], f => ⟨[], f, some .assertionError⟩
  | _ :: _, none => ⟨[], none, some .ioError⟩
  | t0 :: rest, some last =>
    match pushLoop last sendOk (t0 :: rest) force 0 [] with
    | (sent, some e) => ⟨sent, some last, some e⟩
    | (sent, none) => ⟨sent, some t0.hash, none⟩

/-! ### Sample transactions used as concrete witnesses -/

/-- A sample standing-order transaction (fingerprint field opaque, as the
notifier treats it). -/
def tA : Transaction :=
  { account_name := "Current", date := ⟨3, 1, 2014⟩, transaction_type := "SO",
    account_number := "12345678", sort_code := "11-22-33",
    amount := ⟨true, "12.50"⟩, balance := ⟨false, "100.00"⟩, card := none,
    raw_description := "RENT", description := "RENT", hash := "hashA" }

/-- A second sample transaction with a distinct fingerprint. -/
def tB : Transaction :=
  { tA with description := "GYM", raw_description := "GYM", hash := "hashB" }

/-- A third sample transaction with a distinct fingerprint. -/
def tC : Transaction :=
  { tA with description := "SHOP", raw_description := "SHOP", hash := "hashC" }

/-- A sample direct-debit transaction whose fingerprint tuple matches `tD2`. -/
def tD1 : Transaction :=
  { account_name := "Savings", date := ⟨7, 6, 2015⟩, transaction_type := "DD",
    account_number := "11111111", sort_code := "10-20-30",
    amount := ⟨true, "9.99"⟩, balance := ⟨false, "55.00"⟩, card := none,
    raw_description := "NETFLIX", description := "NETFLIX", hash := "" }

/-- Same fingerprint tuple as `tD1` but different balance, account number and
sort code. -/
def tD2 : Transaction :=
  { tD1 with balance := ⟨false, "999.99"⟩, account_number := "22222222",
             sort_code := "99-99-99" }

/-! ### C1 -/

/-- C1: the claim says a `transaction_type` starting with `"CD "` yields
`"Paid by card **** **** **** <digits>"`.  In the code that branch applies the
`%d` format directive to a string slice, which raises `TypeError`, so
`get_type_explanation` raises instead of returning for every `CD`-prefixed
type — including the bare table code `"CD"`, which the `startswith('CD')`
test (no trailing space) also routes into the broken branch.  The table-lookup
half of the claim does hold: `"SO"` yields `"Standing order"` and the unknown
code `"ZZZ"` yields `""`. -/
theorem c1_type_explanation_raises :
    get_type_explanation "CD 1234" = .error .typeError ∧
    get_type_explanation "CD" = .error .typeError ∧
    get_type_explanation "SO" = .ok "Standing order" ∧
    get_type_explanation "ZZZ" = .ok "" :=
  ⟨rfl, rfl, rfl, rfl⟩

/-! ### C2 -/

/-- C2 counterexample: with the cursor file absent the run does not proceed
with an empty cursor — `open(path, 'r+')` raises `IOError`, nothing is sent,
and the file stays absent. -/
theorem c2_missing_cursor_counterexample :
    push_notifications [tA] none false (fun _ => true) =
      ⟨[], none, some .ioError⟩ :=
  rfl

/-- C2 amended: reading the notification cursor does NOT tolerate an absent
cursor file.  For every non-empty run with the file absent, the `'r+'` open
raises `IOError`; the run aborts having sent nothing and the file stays
absent. -/
theorem c2_missing_cursor_amended (ts : List Transaction) (force : Bool)
    (sendOk : Nat → Bool) (h : ts ≠ []) :
    push_notifications ts none force sendOk = ⟨[], none, some .ioError⟩ := by
  match ts with
  | [] => exact absurd rfl h
  | t :: rest => rfl

/-- C2 witness: the amended theorem applied to a concrete forced run. -/
theorem c2_missing_cursor_witness :
    push_notifications [tA] none true (fun _ => true) = ⟨[], none, some .ioError⟩ :=
  c2_missing_cursor_amended [tA] true (fun _ => true) (by simp)

/-! ### C3, C4, C5: the cursor state machine -/

/-- C3: with newest-first transactions `[A, B, C]`, the cursor at
`fingerprint(B)` and `force = false`, the notifier sends exactly one
notification — the full message for `A` — and persists `fingerprint(A)`.
The scenario's premises: `A` is genuinely new (its fingerprint differs from
the cursor) and `A`'s type is not `CD`-prefixed (a constructed transaction
never is, since `__init__` would already have raised while fingerprinting,
see C1). -/
theorem c3_new_transaction_detection (A B C : Transaction)
    (hAB : A.hash ≠ B.hash)
    (hA : strStartsWith A.transaction_type "CD" = false) :
    push_notifications [A, B, C] (some B.hash) false (fun _ => true) =
      ⟨[(A.account_name, fullMessage A (typeLabel A.transaction_type))],
       some A.hash, none⟩ := by
  simp [push_notifications, pushLoop, hAB, hA, get_type_explanation]

/-- C3 witness: the theorem at three concrete transactions. -/
theorem c3_new_transaction_witness :
    push_notifications [tA, tB, tC] (some tB.hash) false (fun _ => true) =
      ⟨[(tA.account_name, fullMessage tA (typeLabel tA.transaction_type))],
       some tA.hash, none⟩ :=
  c3_new_transaction_detection tA tB tC (by decide) (by decide)

/-- C4: when the newest transaction's fingerprint equals the cursor, a forced
run sends exactly one balance-only notification (no amount, no description)
and rewrites the cursor file with the same fingerprint, and an unforced run
sends nothing and likewise leaves the persisted value unchanged. -/
theorem c4_steady_state (t : Transaction) (rest : List Transaction) :
    push_notifications (t :: rest) (some t.hash) true (fun _ => true) =
      ⟨[(t.account_name, balanceMessage t)], some t.hash, none⟩ ∧
    push_notifications (t :: rest) (some t.hash) false (fun _ => true) =
      ⟨[], some t.hash, none⟩ := by
  constructor <;> simp [push_notifications, pushLoop]

/-- C4 witness: the theorem at a concrete transaction list. -/
theorem c4_steady_state_witness :
    push_notifications [tA, tB] (some tA.hash) true (fun _ => true) =
      ⟨[(tA.account_name, balanceMessage tA)], some tA.hash, none⟩ ∧
    push_notifications [tA, tB] (some tA.hash) false (fun _ => true) =
      ⟨[], some tA.hash, none⟩ :=
  c4_steady_state tA [tB]

/-- The notification loop when no transaction matches the cursor: it visits
the whole remaining list, sending one full notification per transaction. -/
theorem pushLoop_all_new (last : String) :
    ∀ (l : List Transaction) (k : Nat) (acc : List (String × String)),
    (∀ t ∈ l, t.hash ≠ last) →
    (∀ t ∈ l, strStartsWith t.transaction_type "CD" = false) →
    pushLoop last (fun _ => true) l false k acc =
      (acc.reverse ++
        l.map (fun t => (t.account_name, fullMessage t (typeLabel t.transaction_type))),
       none) := by
  intro l
  induction l with
  | nil => intro k acc _ _; simp [pushLoop]
  | cons t rest ih =>
    intro k acc h1 h2
    have ht : t.hash ≠ last := h1 t (by simp)
    have htcd := h2 t (by simp)
    rw [pushLoop]
    simp only [ht, get_type_explanation, htcd, if_true, if_false, and_false, false_and,
      ite_false, Bool.false_eq_true]
    rw [ih (k + 1) ((t.account_name, fullMessage t (typeLabel t.transaction_type)) :: acc)
        (fun x hx => h1 x (by simp [hx])) (fun x hx => h2 x (by simp [hx]))]
    simp

/-- C5: a first-ever run (cursor file holds the empty string) with
`force = false` sends one full notification per transaction in list order
(newest to oldest) and persists the newest transaction's fingerprint.  The
premises are the claim's own: every fingerprint is nonempty (a sha256 hex
digest never is), so none matches the empty cursor; and no type is
`CD`-prefixed (see C1/C3). -/
theorem c5_first_run (t0 : Transaction) (rest : List Transaction)
    (hh : ∀ t ∈ t0 :: rest, t.hash ≠ "")
    (hcd : ∀ t ∈ t0 :: rest, strStartsWith t.transaction_type "CD" = false) :
    push_notifications (t0 :: rest) (some "") false (fun _ => true) =
      ⟨(t0 :: rest).map (fun t => (t.account_name, fullMessage t (typeLabel t.transaction_type))),
       some t0.hash, none⟩ := by
  have h := pushLoop_all_new "" (t0 :: rest) 0 [] hh hcd
  simp only [push_notifications, h, List.reverse_nil, List.nil_append]

/-- C5 witness: the theorem at three concrete transactions. -/
theorem c5_first_run_witness :
    push_notifications [tA, tB, tC] (some "") false (fun _ => true) =
      ⟨[(tA.account_name, fullMessage tA (typeLabel tA.transaction_type)),
        (tB.account_name, fullMessage tB (typeLabel tB.transaction_type)),
        (tC.account_name, fullMessage tC (typeLabel tC.transaction_type))],
       some tA.hash, none⟩ :=
  c5_first_run tA [tB, tC] (by decide) (by decide)

/-! ### C6: the fingerprint is a function of the canonical tuple -/

/-- C6: the fingerprint depends only on
`(account_name, date, transaction_type, description, amount)` — two
transactions agreeing on that tuple get equal fingerprints however their
`balance`, `account_number` and `sort_code` differ — and re-parsing the same
raw record (same account name, same fields) always yields the same
fingerprint. -/
theorem c6_fingerprint_determinism :
    (∀ t1 t2 : Transaction,
       t1.account_name = t2.account_name → t1.date = t2.date →
       t1.transaction_type = t2.transaction_type → t1.description = t2.description →
       t1.amount = t2.amount → computeHash t1 = computeHash t2) ∧
    (∀ (a : String) (f : RawRecord) (t1 t2 : Transaction),
       mkTransaction a f = .ok t1 → mkTransaction a f = .ok t2 → t1.hash = t2.hash) := by
  constructor
  · intro t1 t2 h1 h2 h3 h4 h5
    unfold computeHash computeRepr
    rw [h1, h2, h3, h4, h5]
  · intro a f t1 t2 e1 e2
    rw [e1] at e2
    injection e2 with e
    rw [e]

/-- C6 witness: `tD1` and `tD2` differ in balance, account number and sort
code yet agree on the canonical tuple, so the theorem applies with all
hypotheses discharged by `rfl`. -/
theorem c6_fingerprint_witness : computeHash tD1 = computeHash tD2 :=
  c6_fingerprint_determinism.1 tD1 tD2 rfl rfl rfl rfl rfl

/-! ### C7: failure of the notification sink -/

/-- If the notification loop ends with `sendError` and the request counter
entered in sync with the accumulator (`k = acc.length`), then it was exactly
the request after the already-dispatched ones that failed. -/
theorem pushLoop_sendError_index (last : String) (sendOk : Nat → Bool) :
    ∀ (l : List Transaction) (force : Bool) (k : Nat)
      (acc s : List (String × String)),
    k = acc.length →
    pushLoop last sendOk l force k acc = (s, some .sendError) →
    sendOk s.length = false := by
  intro l
  induction l with
  | nil =>
    intro force k acc s _ hp
    simp [pushLoop] at hp
  | cons t rest ih =>
    intro force k acc s hk hp
    rw [pushLoop] at hp
    by_cases hbreak : t.hash = last ∧ force = false
    · rw [if_pos hbreak] at hp
      simp at hp
    · rw [if_neg hbreak] at hp
      by_cases hmatch : t.hash = last
      · rw [if_pos hmatch] at hp
        cases hsk : sendOk k with
        | true => rw [hsk] at hp; simp at hp
        | false =>
          rw [hsk] at hp
          simp at hp
          rw [← hp, List.length_reverse, ← hk]
          exact hsk
      · rw [if_neg hmatch] at hp
        cases he : get_type_explanation t.transaction_type with
        | error e =>
          rw [he] at hp
          simp at hp
          -- get_type_explanation only raises TypeError, never sendError
          unfold get_type_explanation at he
          by_cases hcd : strStartsWith t.transaction_type "CD" = true
          · rw [if_pos hcd] at he
            injection he with he'
            rw [← he'] at hp
            exact absurd hp.2 (by simp)
          · rw [if_neg hcd] at he
            exact absurd he (by simp)
        | ok expl =>
          rw [he] at hp
          cases hsk : sendOk k with
          | true =>
            rw [hsk] at hp
            simp only [if_true] at hp
            exact ih false (k + 1) ((t.account_name, fullMessage t expl) :: acc) s
              (by simp [hk]) hp
          | false =>
            rw [hsk] at hp
            simp at hp
            rw [← hp, List.length_reverse, ← hk]
            exact hsk

/-- C7: when the sink fails on some transaction during a run, the `sendError`
propagates out of `push_notifications`, the run aborts, and the cursor file is
left at its pre-run value; the notifications dispatched before the failing
request (exactly `sent`, whose next index is the one that failed) stand. -/
theorem c7_send_failure_atomicity (ts : List Transaction) (file : Option String)
    (force : Bool) (sendOk : Nat → Bool)
    (h : (push_notifications ts file force sendOk).err = some .sendError) :
    (push_notifications ts file force sendOk).fileAfter = file ∧
    sendOk (push_notifications ts file force sendOk).sent.length = false := by
  cases ts with
  | nil => simp [push_notifications] at h
  | cons t0 rest =>
    cases file with
    | none => simp [push_notifications] at h
    | some last =>
      have hout : push_notifications (t0 :: rest) (some last) force sendOk =
          (match pushLoop last sendOk (t0 :: rest) force 0 [] with
           | (sent, some e) => ⟨sent, some last, some e⟩
           | (sent, none) => ⟨sent, some t0.hash, none⟩) := rfl
      cases hp : pushLoop last sendOk (t0 :: rest) force 0 [] with
      | mk sent oe =>
        rw [hout, hp] at h ⊢
        cases oe with
        | none => simp at h
        | some e =>
          simp at h ⊢
          subst h
          exact pushLoop_sendError_index last sendOk (t0 :: rest) force 0 [] sent rfl hp

/-- C7 witness: a concrete run over two new transactions whose second request
fails: the first notification was dispatched, the error surfaced, and the
cursor file still holds its pre-run (empty) value. -/
theorem c7_send_failure_witness :
    (push_notifications [tA, tB] (some "") false (fun k => k == 0)).sent =
      [(tA.account_name, fullMessage tA (typeLabel tA.transaction_type))] ∧
    (push_notifications [tA, tB] (some "") false (fun k => k == 0)).err =
      some .sendError ∧
    (push_notifications [tA, tB] (some "") false (fun k => k == 0)).fileAfter =
      some "" :=
  ⟨rfl, rfl,
   (c7_send_failure_atomicity [tA, tB] (some "") false (fun k => k == 0) rfl).1⟩

/-! ### C8: the pre-hash encoding and its (non-)injectivity -/

/-- Does a character list contain the two-character separator `", "` that
`__repr__` places between fields? -/
def hasSep : List Char → Bool
  | [] => false
  | [_] => false
  | a :: b :: l => (a == ',' && b == ' ') || hasSep (b :: l)

/-- `hasSep` is monotone under dropping the head. -/
theorem hasSep_tail {a : Char} {l : List Char} (h : hasSep (a :: l) = false) :
    hasSep l = false := by
  cases l with
  | nil => rfl
  | cons b l' =>
    simp only [hasSep, Bool.or_eq_false_iff] at h
    exact h.2

/-- Splitting at `", "` is unambiguous for separator-free parts: `", "` cannot
overlap itself (its two characters differ), so equal concatenations force
equal parts. -/
theorem sep_split_unique : ∀ (xs ys zs ws : List Char),
    hasSep xs = false → hasSep ys = false →
    xs ++ ',' :: ' ' :: zs = ys ++ ',' :: ' ' :: ws → xs = ys ∧ zs = ws := by
  intro xs
  induction xs with
  | nil =>
    intro ys zs ws _ hy h
    cases ys with
    | nil =>
      simp only [List.nil_append] at h
      injection h with _ h2
      injection h2 with _ h3
      exact ⟨rfl, h3⟩
    | cons y ys' =>
      simp only [List.nil_append, List.cons_append] at h
      injection h with hy1 h2
      cases ys' with
      | nil =>
        simp only [List.nil_append] at h2
        injection h2 with hy2 _
        exact absurd hy2 (by decide)
      | cons y2 ys'' =>
        simp only [List.cons_append] at h2
        injection h2 with hy2 _
        rw [← hy1, ← hy2] at hy
        simp [hasSep] at hy
  | cons x xs' ih =>
    intro ys zs ws hx hy h
    cases ys with
    | nil =>
      simp only [List.cons_append, List.nil_append] at h
      injection h with hx1 h2
      cases xs' with
      | nil =>
        simp only [List.nil_append] at h2
        injection h2 with hx2 _
        exact absurd hx2 (by decide)
      | cons x2 xs'' =>
        simp only [List.cons_append] at h2
        injection h2 with hx2 _
        rw [hx1, hx2] at hx
        simp [hasSep] at hx
    | cons y ys' =>
      simp only [List.cons_append] at h
      injection h with h1 h2
      obtain ⟨hxy, hzw⟩ := ih ys' zs ws (hasSep_tail hx) (hasSep_tail hy) h2
      exact ⟨by rw [h1, hxy], hzw⟩

/-- Two strings with the same character data are equal. -/
theorem string_eq_of_data {s t : String} (h : s.data = t.data) : s = t := by
  cases s; cases t; exact congrArg String.mk h

/-- `String.append` concatenates the character data. -/
theorem data_append (s t : String) : (s ++ t).data = s.data ++ t.data := by
  cases s; cases t; rfl

/-- The character data of the field separator literal. -/
theorem sep_data : (", " : String).data = [',', ' '] := rfl

/-- The character data of the closing parenthesis literal. -/
theorem rpar_data : (")" : String).data = [')'] := rfl

/-- The pre-hash encoding of `__repr__`, on raw character lists and
right-associated: prefix `"Transaction("`, the five rendered fields joined by
`", "`, and a closing `")"`. -/
def encodeFields (n d e s a : List Char) : List Char :=
  "Transaction(".data ++
    (n ++ (',' :: ' ' :: (d ++ (',' :: ' ' :: (e ++ (',' :: ' ' ::
      (s ++ (',' :: ' ' :: (a ++ ([')'] : List Char))))))))))

/-- On a non-`CD` transaction, `computeRepr` succeeds and produces exactly the
`encodeFields` encoding of the five rendered fields. -/
theorem computeRepr_data (t : Transaction)
    (hcd : strStartsWith t.transaction_type "CD" = false) :
    computeRepr t = .ok ⟨encodeFields t.account_name.data (fmtDMY t.date).data
      (typeLabel t.transaction_type).data t.description.data (decStr t.amount).data⟩ := by
  unfold computeRepr get_type_explanation
  rw [hcd]
  simp only [Bool.false_eq_true, if_false, Except.map]
  congr 1
  apply string_eq_of_data
  simp [encodeFields, data_append, sep_data, rpar_data, List.append_assoc]

/-- A successful `computeRepr` means the type is not `CD`-prefixed. -/
theorem computeRepr_ok_not_cd {t : Transaction} {r : String}
    (h : computeRepr t = .ok r) :
    strStartsWith t.transaction_type "CD" = false := by
  by_contra hc
  rw [Bool.not_eq_false] at hc
  unfold computeRepr get_type_explanation at h
  rw [hc] at h
  simp [Except.map] at h

/-- C8 counterexample: the separator `", "` IS producible by field values, so
the pre-hash encoding is not injective — `x1` and `x2` differ in both
`account_name` and `description` yet encode to the same pre-hash string. -/
def x1 : Transaction :=
  { account_name := "A, 01/01/2014, Standing order, B", date := ⟨1, 1, 2014⟩,
    transaction_type := "SO", account_number := "1", sort_code := "1",
    amount := ⟨false, "5"⟩, balance := ⟨false, "5"⟩, card := none,
    raw_description := "C", description := "C", hash := "" }

/-- The colliding partner of `x1`: the `", 01/01/2014, Standing order, "`
middle section migrates from the account name into the description. -/
def x2 : Transaction :=
  { x1 with account_name := "A", description := "B, 01/01/2014, Standing order, C" }

/-- C8 counterexample theorem: two transactions differing in fields of the
canonical tuple whose pre-hash strings (and hence fingerprints) coincide. -/
theorem c8_encoding_counterexample :
    computeRepr x1 = computeRepr x2 ∧
    x1.account_name ≠ x2.account_name ∧ x1.description ≠ x2.description :=
  ⟨rfl, by decide, by decide⟩

/-- C8 amended: the encoding joins the five rendered fields with a bare
`", "`, with no escaping, so it is injective only on separator-free field
values: if two transactions produce the same pre-hash string and none of their
rendered fields contains `", "`, then all five rendered fields agree.  (By
C8's counterexample the restriction is necessary.) -/
theorem c8_encoding_amended (t1 t2 : Transaction) (r : String)
    (h1 : computeRepr t1 = .ok r) (h2 : computeRepr t2 = .ok r)
    (hn1 : hasSep t1.account_name.data = false)
    (hn2 : hasSep t2.account_name.data = false)
    (hd1 : hasSep (fmtDMY t1.date).data = false)
    (hd2 : hasSep (fmtDMY t2.date).data = false)
    (he1 : hasSep (typeLabel t1.transaction_type).data = false)
    (he2 : hasSep (typeLabel t2.transaction_type).data = false)
    (hs1 : hasSep t1.description.data = false)
    (hs2 : hasSep t2.description.data = false) :
    t1.account_name = t2.account_name ∧ fmtDMY t1.date = fmtDMY t2.date ∧
    typeLabel t1.transaction_type = typeLabel t2.transaction_type ∧
    t1.description = t2.description ∧ decStr t1.amount = decStr t2.amount := by
  rw [computeRepr_data t1 (computeRepr_ok_not_cd h1)] at h1
  rw [computeRepr_data t2 (computeRepr_ok_not_cd h2)] at h2
  rw [← h2] at h1
  injection h1 with h
  have hX : encodeFields t1.account_name.data (fmtDMY t1.date).data
      (typeLabel t1.transaction_type).data t1.description.data (decStr t1.amount).data =
      encodeFields t2.account_name.data (fmtDMY t2.date).data
        (typeLabel t2.transaction_type).data t2.description.data (decStr t2.amount).data := by
    have := congrArg String.data h
    simpa using this
  simp only [encodeFields] at hX
  have hX1 := List.append_cancel_left hX
  obtain ⟨hname, hX2⟩ := sep_split_unique _ _ _ _ hn1 hn2 hX1
  obtain ⟨hdate, hX3⟩ := sep_split_unique _ _ _ _ hd1 hd2 hX2
  obtain ⟨hexpl, hX4⟩ := sep_split_unique _ _ _ _ he1 he2 hX3
  obtain ⟨hdesc, hX5⟩ := sep_split_unique _ _ _ _ hs1 hs2 hX4
  have hamt := List.append_cancel_right hX5
  exact ⟨string_eq_of_data hname, string_eq_of_data hdate, string_eq_of_data hexpl,
    string_eq_of_data hdesc, string_eq_of_data hamt⟩

/-- C8 witness: the amended theorem applied to the concrete separator-free
transactions `tD1` and `tD2`, which share one pre-hash string. -/
theorem c8_encoding_witness :
    tD1.account_name = tD2.account_name ∧ fmtDMY tD1.date = fmtDMY tD2.date ∧
    typeLabel tD1.transaction_type = typeLabel tD2.transaction_type ∧
    tD1.description = tD2.description ∧ decStr tD1.amount = decStr tD2.amount :=
  c8_encoding_amended tD1 tD2
    "Transaction(Savings, 07/06/2015, Direct Debit, NETFLIX, -9.99)"
    rfl rfl (by decide) (by decide) (by decide) (by decide) (by decide) (by decide)
    (by decide) (by decide)

/-! ### C9, C10: description cleanup -/

/-- A match of the regex tail `" CD (\d{4})$"` consumes exactly 8 characters. -/
theorem cdSuffix_length {l ds : List Char} (h : cdSuffix l = some ds) :
    l.length = 8 := by
  unfold cdSuffix at h
  split at h
  · rename_i d1 d2 d3 d4
    rfl
  · simp at h

/-- The lazy scan of `(.*?) CD (\d{4})$` over a newline-free subject is
equivalent to testing whether the last eight characters are `" CD "` plus four
digits: the match position is forced because the tail has fixed length. -/
theorem cdScan_eq_spec : ∀ (l : List Char), (∀ c ∈ l, c ≠ '\n') →
    cdScan l =
      (cdSuffix (l.drop (l.length - 8))).map (fun ds => (l.take (l.length - 8), ds)) := by
  intro l
  induction l with
  | nil => intro _; rfl
  | cons c rest ih =>
    intro h
    rw [cdScan]
    cases hs : cdSuffix (c :: rest) with
    | some ds =>
      have hl : (c :: rest).length = 8 := cdSuffix_length hs
      rw [hl]
      simp [hs]
    | none =>
      have hc : ¬ c = '\n' := h c (by simp)
      simp only [hs]
      rw [if_neg hc]
      rw [ih (fun x hx => h x (by simp [hx]))]
      rcases Nat.lt_or_ge rest.length 8 with hlen | hlen
      · have h0 : (c :: rest).length - 8 = 0 := by
          simp only [List.length_cons]; omega
        rw [h0]
        simp only [List.drop_zero, hs, Option.map_none]
        cases hrs : cdSuffix (rest.drop (rest.length - 8)) with
        | none => simp [hrs]
        | some ds =>
          have h8 := cdSuffix_length hrs
          rw [List.length_drop] at h8
          omega
      · have h1 : (c :: rest).length - 8 = (rest.length - 8) + 1 := by
          simp only [List.length_cons]; omega
        rw [h1, List.drop_succ_cons, List.take_succ_cons]
        cases hrs : cdSuffix (rest.drop (rest.length - 8)) with
        | none => simp [hrs]
        | some ds => simp [hrs]

/-- Stripping keeps only characters of the original list. -/
theorem pyStripL_subset {l : List Char} : ∀ c ∈ pyStripL l, c ∈ l := by
  intro c hc
  unfold pyStripL at hc
  rw [List.mem_reverse] at hc
  have h1 := (List.dropWhile_sublist isPySpace).subset hc
  rw [List.mem_reverse] at h1
  exact (List.dropWhile_sublist isPySpace).subset h1

/-- Every character of the trimmed, date-stripped description occurs in the
raw description. -/
theorem mem_dateStrippedDesc {c : Char} {d : PyDate} {raw : String}
    (hc : c ∈ dateStrippedDesc d raw) : c ∈ raw.data := by
  unfold dateStrippedDesc at hc
  simp only at hc
  by_cases he : (fmtDDMMMYY d).data.isSuffixOf (pyStripL raw.data) = true
  · rw [if_pos he] at hc
    exact pyStripL_subset c (List.take_subset _ _ (pyStripL_subset c hc))
  · rw [if_neg he] at hc
    exact pyStripL_subset c hc

/-- C9 counterexample: the claim's cleanup algorithm is stated without the
regex's newline restriction.  On a raw description whose `<text>` part spans a
newline, `(.*?)` (whose `.` does not match a newline) fails, so the code keeps
the description intact with no card, while the algorithm as claimed strips the
trailing `" CD 1234"` and extracts the card. -/
theorem c9_description_counterexample :
    parse_description ⟨1, 2, 2014⟩ "A\nB CD 1234" = ("A\nB CD 1234", none) ∧
    parse_description_spec ⟨1, 2, 2014⟩ "A\nB CD 1234" = ("A\nB", some "1234") :=
  ⟨rfl, rfl⟩

/-- C9 amended: for every date and raw description containing no newline, the
description cleanup behaves exactly as the claim states it — trim, strip a
trailing uppercase `DDMmmYY` date stamp and re-trim, then split off a trailing
`" CD <4 digits>"` into the card, else keep the text with no card
(`parse_description_spec` is the claim's algorithm verbatim). -/
theorem c9_description_amended (d : PyDate) (raw : String)
    (h : ∀ c ∈ raw.data, c ≠ '\n') :
    parse_description d raw = parse_description_spec d raw := by
  unfold parse_description parse_description_spec
  simp only
  rw [cdScan_eq_spec (dateStrippedDesc d raw)
    (fun c hc => h c (mem_dateStrippedDesc hc))]
  cases hX : cdSuffix ((dateStrippedDesc d raw).drop ((dateStrippedDesc d raw).length - 8)) with
  | none => simp
  | some ds => simp

/-- C9 witness: the amended theorem at the specification's own test vector. -/
theorem c9_description_witness :
    parse_description ⟨3, 1, 2014⟩ "TESCO STORE 03JAN14" =
      parse_description_spec ⟨3, 1, 2014⟩ "TESCO STORE 03JAN14" ∧
    parse_description ⟨3, 1, 2014⟩ "TESCO STORE 03JAN14" = ("TESCO STORE", none) :=
  ⟨c9_description_amended ⟨3, 1, 2014⟩ "TESCO STORE 03JAN14" (by decide), rfl⟩

/-- C10: card extraction is anchored to the end of the date-stripped
description and needs text before `" CD "`:

* appending `" CD "` plus four digits to any newline-free text makes the scan
  capture exactly that text and those digits — so with several `" CD nnnn"`
  groups, only the final four digits become the card and all earlier text
  (earlier groups included) stays in the captured text;
* a description that is exactly `"CD 1234"` (no room for a preceding
  character and the mandatory space) is kept unchanged, card absent;
* `"A CD 1111 CD 2222"` keeps `"A CD 1111"` and extracts card `"2222"`. -/
theorem c10_card_anchoring :
    (∀ (text ds : List Char), ds.length = 4 → (∀ c ∈ ds, c.isDigit = true) →
       (∀ c ∈ text, c ≠ '\n') →
       cdScan (text ++ ' ' :: 'C' :: 'D' :: ' ' :: ds) = some (text, ds)) ∧
    parse_description ⟨14, 2, 2014⟩ "CD 1234" = ("CD 1234", none) ∧
    parse_description ⟨14, 2, 2014⟩ "A CD 1111 CD 2222" = ("A CD 1111", some "2222") := by
  refine ⟨?_, rfl, rfl⟩
  intro text ds hlen hdig hnl
  have hnl' : ∀ c ∈ text ++ ' ' :: 'C' :: 'D' :: ' ' :: ds, c ≠ '\n' := by
    intro c hc
    rcases List.mem_append.mp hc with hmem | hmem
    · exact hnl c hmem
    · simp only [List.mem_cons] at hmem
      rcases hmem with h1 | h1 | h1 | h1 | h1
      · rw [h1]; decide
      · rw [h1]; decide
      · rw [h1]; decide
      · rw [h1]; decide
      · have hd := hdig c h1
        intro hne
        rw [hne] at hd
        exact absurd hd (by decide)
  rw [cdScan_eq_spec _ hnl']
  have hL : (text ++ ' ' :: 'C' :: 'D' :: ' ' :: ds).length = text.length + 8 := by
    simp [List.length_append, hlen]
  rw [hL]
  have h8 : text.length + 8 - 8 = text.length := by omega
  rw [h8]
  have hdrop : (text ++ ' ' :: 'C' :: 'D' :: ' ' :: ds).drop text.length =
      ' ' :: 'C' :: 'D' :: ' ' :: ds := List.drop_left text _
  have htake : (text ++ ' ' :: 'C' :: 'D' :: ' ' :: ds).take text.length = text :=
    List.take_left text _
  rw [hdrop, htake]
  match ds, hlen with
  | [d1, d2, d3, d4], _ =>
    have h1 := hdig d1 (by simp)
    have h2 := hdig d2 (by simp)
    have h3 := hdig d3 (by simp)
    have h4 := hdig d4 (by simp)
    simp [cdSuffix, h1, h2, h3, h4]

/-- C10 witness: the anchoring theorem at a text that itself contains an
earlier `" CD 1111"` group. -/
theorem c10_card_anchoring_witness :
    cdScan ("A CD 1111".data ++ ' ' :: 'C' :: 'D' :: ' ' :: "2222".data) =
      some ("A CD 1111".data, "2222".data) :=
  c10_card_anchoring.1 "A CD 1111".data "2222".data (by decide) (by decide) (by decide)
